import Mathlib

/-!
Verification of the VowSelect backend (src/backend/server.py and
src/backend/database/init_db.py) against its natural-language specification.

The Python source is shallowly embedded: each Python function that the claims
touch is translated into an executable Lean definition, keeping the source's
names where Lean allows it.  MongoDB collections become Lean lists, Python
dicts become association lists, wall-clock time becomes an explicit `Nat`
argument, and the per-item download/compress outcomes of the import pipeline
(which depend on the network and on image contents) become explicit `Bool`
inputs (`true` = the item downloaded and compressed successfully).
-/

/-! ### TTLCache (server.py lines 27-55)

The cache keeps two Python dicts, `_store : key -> value` and
`_expiry : key -> absolute expiry time`.  Dicts are embedded as association
lists with unique keys; `time.time()` becomes the explicit `now` argument. -/

/-- Lookup in an association list, the embedding of Python `d.get(k)` /
`k in d` followed by `d[k]`. -/
def dictGet (d : List (String × α)) (k : String) : Option α :=
  (d.find? (fun p => p.1 == k)).map (fun p => p.2)

/-- Removal from an association list, the embedding of Python `d.pop(k, None)`. -/
def dictPop (d : List (String × α)) (k : String) : List (String × α) :=
  d.filter (fun p => !(p.1 == k))

/-- Assignment `d[k] = v` on an association list: overwrite in place when the
key is present, append otherwise (Python dicts keep insertion order). -/
def dictSet (d : List (String × α)) (k : String) (v : α) : List (String × α) :=
  if (d.find? (fun p => p.1 == k)).isSome then
    d.map (fun p => if p.1 == k then (k, v) else p)
  else
    d ++ [(k, v)]

/-- Embedding of the `TTLCache` class (server.py lines 27-55): `_store`,
`_expiry` and `_default_ttl`. -/
structure TTLCache (V : Type) where
  store : List (String × V)
  expiry : List (String × Nat)
  default_ttl : Nat

/-- Embedding of `TTLCache.get` (server.py lines 34-40).  Returns the value
only if the key is stored and `now < expiry.get(key, 0)`; otherwise it pops
the key from both dicts and returns `None`.  The mutated cache is returned as
the second component. -/
def TTLCache.get (c : TTLCache V) (now : Nat) (key : String) : Option V × TTLCache V :=
  if (dictGet c.store key).isSome && decide (now < (dictGet c.expiry key).getD 0) then
    (dictGet c.store key, c)
  else
    (none, { c with store := dictPop c.store key, expiry := dictPop c.expiry key })

/-- Embedding of `TTLCache.set` (server.py lines 42-44): stores the value and
sets `expiry = now + (ttl if ttl is not None else default_ttl)`. -/
def TTLCache.set (c : TTLCache V) (now : Nat) (key : String) (v : V)
    (ttl : Option Nat) : TTLCache V :=
  { c with
    store := dictSet c.store key v
    expiry := dictSet c.expiry key (now + ttl.getD c.default_ttl) }

/-- Embedding of `TTLCache.invalidate` (server.py lines 46-48): pop the key
from both dicts. -/
def TTLCache.invalidate (c : TTLCache V) (key : String) : TTLCache V :=
  { c with store := dictPop c.store key, expiry := dictPop c.expiry key }

/-- Embedding of `TTLCache.invalidate_prefix` (server.py lines 50-55): collect
all stored keys starting with the argument, then pop each of them from both
dicts. -/
def TTLCache.invalidatePre (c : TTLCache V) (pre : String) : TTLCache V :=
  let keys := (c.store.map Prod.fst).filter (fun k => k.startsWith pre)
  keys.foldl (fun acc k => acc.invalidate k) c

/-! ### Ranking aggregation (`calculate_photo_rankings`, server.py lines 317-378)

The two `db` queries of the source already restrict photos and votes to the
requested room, so the embedding takes the room's photo and vote documents as
list arguments.  Vote scores are integers; the Python float mean becomes the
exact rational mean. -/

/-- Embedding of a `photos` collection document as read by
`calculate_photo_rankings`: `str(photo["_id"])`, `filename`, `source_type` and
the optional `compressed_data` payload. -/
structure Photo where
  photo_id : String
  filename : String
  source_type : String
  compressed_data : Option String
  deriving DecidableEq

/-- Embedding of a `votes` collection document: the (room, photo, user)
triple, the integer score and the timestamp. -/
structure Vote where
  room_id : String
  photo_id : String
  user_id : String
  score : Int
  timestamp : Nat
  deriving DecidableEq

/-- Embedding of the `PhotoRanking` model as populated by
`calculate_photo_rankings` (server.py lines 356-368). -/
structure PhotoRanking where
  photo_id : String
  filename : String
  source_type : String
  compressed_data : Option String
  weighted_score : Rat
  vote_count : Nat
  rank : Nat
  deriving DecidableEq

/-- Embedding of `votes_by_photo.get(photo_id, [])` (server.py lines 330-339):
the room's votes are grouped by `photo_id`, preserving order, so the group of
one photo is exactly the sublist of votes carrying its id. -/
def votesFor (votes : List Vote) (pid : String) : List Vote :=
  votes.filter (fun v => v.photo_id == pid)

/-- Python truthiness of an optional string: `not x` is true for `None` and
for the empty string.  Used to embed `if not compressed_data` (line 352). -/
def pyFalsy : Option String → Bool
  | none => true
  | some s => s.isEmpty

/-- Embedding of the skip test of server.py lines 352-354: a photo is kept in
the ranking unless its `compressed_data` is falsy AND its `source_type` is
`"drive"` (the loop `continue`s exactly in that case). -/
def keepInRanking (p : Photo) : Bool :=
  !(pyFalsy p.compressed_data && p.source_type == "drive")

/-- Embedding of one loop iteration of server.py lines 337-368: score
statistics of one photo.  `weighted_score = sum(scores)/len(votes)` when the
photo has votes, else `0`; `vote_count = len(votes)`; `rank` starts at `0`. -/
def rankingEntry (votes : List Vote) (photo : Photo) : PhotoRanking :=
  let vs := votesFor votes photo.photo_id
  { photo_id := photo.photo_id
    filename := photo.filename
    source_type := photo.source_type
    compressed_data := photo.compressed_data
    weighted_score :=
      if vs.isEmpty then 0
      else ((vs.map (fun v => (v.score : Rat))).sum) / (vs.length : Rat)
    vote_count := vs.length
    rank := 0 }

/-- Embedding of the `rankings` list as built by the photo loop of server.py
lines 336-368, before sorting: the kept photos in iteration order, each mapped
to its ranking entry. -/
def rankingBase (photos : List Photo) (votes : List Vote) : List PhotoRanking :=
  (photos.filter keepInRanking).map (rankingEntry votes)

/-- Comparison used by `rankings.sort(key=lambda x: x.weighted_score,
reverse=True)` (server.py line 371): `a` may precede `b` when
`b.weighted_score ≤ a.weighted_score`. -/
def wsDesc (a b : PhotoRanking) : Prop :=
  b.weighted_score ≤ a.weighted_score

instance : DecidableRel wsDesc := fun a b =>
  inferInstanceAs (Decidable (b.weighted_score ≤ a.weighted_score))

instance : IsTotal PhotoRanking wsDesc :=
  ⟨fun a b => (le_total a.weighted_score b.weighted_score).symm⟩

instance : IsTrans PhotoRanking wsDesc :=
  ⟨fun _ _ _ hab hbc => le_trans hbc hab⟩

/-- Embedding of the rank-assignment loop `for idx, ranking in
enumerate(rankings, 1): ranking.rank = idx` (server.py lines 374-375). -/
def assignRanks : Nat → List PhotoRanking → List PhotoRanking
  | _, [] => []
  | n, r :: rs => { r with rank := n } :: assignRanks (n + 1) rs

/-- Embedding of `calculate_photo_rankings` (server.py lines 317-378) on a
cache miss: build the entries of the kept photos, sort them stably by
`weighted_score` descending (Python `list.sort` is stable; `insertionSort`
with `wsDesc` is the standard stable embedding of a descending key sort), and
assign 1-based ranks.  The read-through cache write (line 377) has no effect
on the returned list and is not part of this value-level embedding. -/
def calculate_photo_rankings (photos : List Photo) (votes : List Vote) : List PhotoRanking :=
  assignRanks 1 (List.insertionSort wsDesc (rankingBase photos votes))

/-! ### Voting (`create_vote`, server.py lines 1573-1609; `undo_vote`,
lines 1612-1631)

The `votes` collection becomes a `List Vote`; `datetime.utcnow()` becomes the
explicit `now` argument.  Errors raised via `HTTPException` (and the other
Python exception classes that reach the HTTP boundary) are embedded in
`PyErr`; `strOfErr` embeds Python `str(e)` for each class. -/

/-- Embedding of the exceptions that the import and vote endpoints raise or
wrap: Starlette `HTTPException(status_code, detail)`, `ValueError(msg)`, and
any other exception rendered by its message. -/
inductive PyErr
  | httpExc (status_code : Nat) (detail : String)
  | valueError (msg : String)
  | otherExc (msg : String)
  deriving DecidableEq

/-- Embedding of Python `str(e)`: Starlette's `HTTPException.__str__` renders
`"{status_code}: {detail}"`; `ValueError` and plain exceptions render their
message. -/
def strOfErr : PyErr → String
  | .httpExc s d => toString s ++ ": " ++ d
  | .valueError m => m
  | .otherExc m => m

/-- Embedding of the score allow-list `[-3, -2, -1, 1, 2, 3]` of server.py
line 1577 (the same set is the `enum` of the votes collection validator,
init_db.py line 294). -/
def allowedScores : List Int := [-3, -2, -1, 1, 2, 3]

/-- Embedding of the `find_one` filter of server.py lines 1581-1585: the vote
document matching the (room, photo, user) triple. -/
def voteMatches (room_id photo_id user_id : String) (v : Vote) : Bool :=
  v.room_id == room_id && v.photo_id == photo_id && v.user_id == user_id

/-- Embedding of `update_one({"_id": existing_vote["_id"]}, {"$set": ...})`:
rewrite the first document matching the filter (the one `find_one` returned),
leaving every other document untouched. -/
def updateFirst (p : Vote → Bool) (f : Vote → Vote) : List Vote → List Vote
  | [] => []
  | v :: vs => if p v then f v :: vs else v :: updateFirst p f vs

/-- Embedding of `create_vote` (server.py lines 1573-1609).  A score outside
the allow-list is rejected with HTTP 400 before the collection is read or
written.  Otherwise, if a vote by the same (room, photo, user) triple exists,
its `score` and `timestamp` are overwritten in place; else a new document is
inserted.  The rankings-cache invalidation performed on both success paths
does not touch the votes collection and is outside this value-level
embedding. -/
def create_vote (votes : List Vote) (room_id photo_id user_id : String)
    (score : Int) (now : Nat) : Except PyErr (List Vote) :=
  if score ∈ allowedScores then
    match votes.find? (voteMatches room_id photo_id user_id) with
    | some _ =>
        .ok (updateFirst (voteMatches room_id photo_id user_id)
              (fun v => { v with score := score, timestamp := now }) votes)
    | none =>
        .ok (votes ++ [{ room_id := room_id, photo_id := photo_id,
                         user_id := user_id, score := score, timestamp := now }])
  else
    .error (.httpExc 400 "Invalid score. Must be -3, -2, -1, 1, 2, or 3")

/-- Embedding of the mutation performed by `undo_vote` (server.py line 1624):
`delete_one` removes a single existing vote document.  Which document is
selected (the user's most recent vote) is irrelevant to the uniqueness
invariant, so the embedding takes its position in the list. -/
def undo_vote (votes : List Vote) (i : Nat) : List Vote :=
  votes.eraseIdx i

/-- Uniqueness invariant of the votes collection: no two documents share the
(room, photo, user) triple (the unique compound index of init_db.py lines
306-309). -/
def uniqueVotes (votes : List Vote) : Prop :=
  votes.Pairwise (fun a b =>
    ¬(a.room_id = b.room_id ∧ a.photo_id = b.photo_id ∧ a.user_id = b.user_id))

instance : Decidable (uniqueVotes votes) :=
  inferInstanceAs (Decidable (List.Pairwise _ votes))

/-! ### Import job pipeline (`import_photos`, server.py lines 1238-1451;
`process_drive_photos_background`, lines 914-1025)

Per-item network and image work is abstracted by a `Bool` per source item
(`true` = `download_file` plus `compress_image_to_base64` succeed for that
item).  The `import_jobs` collection state of one job is a `JobRecord`;
`failed_photos`, absent from the record until first written, is embedded as a
counter starting at `0`. -/

/-- Embedding of one `import_jobs` document: `status` plus the three progress
counters. -/
structure JobRecord where
  status : String
  total_photos : Nat
  processed_photos : Nat
  failed_photos : Nat
  deriving DecidableEq

/-- Count of successful item outcomes (`processed` increments). -/
def countSuccess (l : List Bool) : Nat := (l.filter (fun b => b)).length

/-- Count of failed item outcomes (`failed` increments). -/
def countFails (l : List Bool) : Nat := (l.filter (fun b => !b)).length

/-- Embedding of one iteration of the per-item loop of
`process_drive_photos_background` (server.py lines 946-981): on success
`processed += 1`, on failure `failed += 1` (the index advances in both
cases). -/
def stepItem : Nat × Nat → Bool → Nat × Nat
  | (p, f), true => (p + 1, f)
  | (p, f), false => (p, f + 1)

/-- Embedding of the batch slicing `remaining_files[batch_start : batch_start
+ batch_size]` for `batch_start in range(0, total_remaining, batch_size)`
(server.py lines 940-941): consecutive chunks of the remainder list. -/
def chunks (bs : Nat) : List α → List (List α)
  | [] => []
  | x :: xs => (x :: xs.take (bs - 1)) :: chunks bs (xs.drop (bs - 1))
  termination_by l => l.length
  decreasing_by
    simp only [List.length_cons, List.length_drop]
    omega

/-- Embedding of the per-batch `import_jobs` update of server.py lines
983-991, as a function of the cumulative `(processed, failed)` accumulator:
`processed_photos = already_processed + processed`, `total_photos =
already_processed + total_remaining - failed`, `failed_photos = failed`
(status stays `"processing"`; the update does not set it). -/
def accState (already R : Nat) (acc : Nat × Nat) : JobRecord :=
  { status := "processing"
    total_photos := already + R - acc.2
    processed_photos := already + acc.1
    failed_photos := acc.2 }

/-- Job records written by the per-batch updates of the batch loop (server.py
lines 940-1002), one per batch, threading the `(processed, failed)`
accumulator through the items of each batch. -/
def runBatchesStates (already R : Nat) (acc : Nat × Nat) :
    List (List Bool) → List JobRecord
  | [] => []
  | b :: rest =>
      let acc' := b.foldl stepItem acc
      accState already R acc' :: runBatchesStates already R acc' rest

/-- Final `(processed, failed)` accumulator after the batch loop. -/
def runBatchesAcc (acc : Nat × Nat) : List (List Bool) → Nat × Nat
  | [] => acc
  | b :: rest => runBatchesAcc (b.foldl stepItem acc) rest

/-- Embedding of `process_drive_photos_background` (server.py lines 914-1025)
on a run with no top-level crash: the sequence of per-batch job updates,
paired with the final job update of lines 1004-1014 (`status = "completed" if
failed < total_remaining else "failed"`, `processed_photos = total_photos =
already_processed + processed`, `failed_photos = failed`). -/
def process_drive_photos_background (already : Nat) (outcomes : List Bool)
    (bs : Nat) : List JobRecord × JobRecord :=
  let R := outcomes.length
  let cs := chunks bs outcomes
  let fin := runBatchesAcc (0, 0) cs
  (runBatchesStates already R (0, 0) cs,
   { status := if fin.2 < R then "completed" else "failed"
     total_photos := already + fin.1
     processed_photos := already + fin.1
     failed_photos := fin.2 })

/-- Job-record states, in write order, of a drive import whose enumeration
left a non-empty remainder, restricted to the states whose status is
`"processing"`: the record created at request start (server.py lines
1246-1254, counters zero); the orchestrator's handoff update (lines
1393-1402), which writes `total_photos = total_found = len(files)` — the
initial-slice length plus the remainder length, regardless of initial-slice
per-item failures — and `processed_photos = imported_count`, the count of
initial-slice successes (failed initial items are skipped at lines
1371-1373); then the per-batch updates of the Continuation Task, which runs
with `already_processed = imported_count`.  `initial` holds the per-item
outcomes of the initial slice, `outcomes` those of the remainder.  The final
completed/failed update follows these and is covered by
`process_drive_photos_background`. -/
def driveJobStates (initial : List Bool) (outcomes : List Bool) (bs : Nat) :
    List JobRecord :=
  { status := "processing", total_photos := 0, processed_photos := 0,
    failed_photos := 0 } ::
  { status := "processing", total_photos := initial.length + outcomes.length,
    processed_photos := countSuccess initial, failed_photos := 0 } ::
  (process_drive_photos_background (countSuccess initial) outcomes bs).1

/-- One monotonicity step between consecutive job records: all three counters
non-decreasing. -/
def monoStepB (a b : JobRecord) : Bool :=
  decide (a.total_photos ≤ b.total_photos) &&
  decide (a.processed_photos ≤ b.processed_photos) &&
  decide (a.failed_photos ≤ b.failed_photos)

/-- All three counters are non-decreasing across every consecutive pair of
job-record states. -/
def monoTrace (l : List JobRecord) : Bool :=
  match l with
  | a :: b :: rest => monoStepB a b && monoTrace (b :: rest)
  | _ => true

/-! ### The `import_photos` endpoint (server.py lines 1238-1451)

The endpoint validates the room, inserts an `import_jobs` record in state
`"processing"`, then runs the source-specific work inside a `try` block whose
`except Exception` handler (lines 1445-1451) catches every exception — the
`HTTPException`s raised by the precondition checks included — marks the job
`"failed"` and re-raises `HTTPException(500, str(e))`.  Only the room check at
lines 1241-1243 precedes the job insert.  Inputs that come from the outside
world (room lookup, folder scan, drive folder-id extraction, token presence,
drive enumeration, per-item success) are fields of `ImportReq`.  Errors can
only arise before any photo insert, so the error branch carries no photos. -/

/-- Embedding of a `photos` collection document as written by the import
paths: the source kind, the filename or path, whether `compressed_data` is
present, and the assigned `index`. -/
structure PhotoRec where
  source_type : String
  name : String
  compressed : Bool
  index : Nat
  deriving DecidableEq

/-- Outcome of `drive_service.list_images_in_folder` (server.py lines
1342-1350): a file list (each file abstracted to its eventual per-item
download/compress success), an error whose text matches the 401/403/auth test
of line 1345, or any other error. -/
inductive EnumResult
  | ok (files : List Bool)
  | authFail (msg : String)
  | err (msg : String)
  deriving DecidableEq

/-- Input of one `import_photos` request together with the behaviour of its
external collaborators: whether the room exists, the request fields, the
folder-scan result, the result of `extract_drive_folder_id` on the drive
input, token presence, and the enumeration outcome. -/
structure ImportReq where
  room_exists : Bool
  source_type : String
  folder_path : Option String
  scan_result : List String
  drive_folder_input : Option String
  extracted_id : Option String
  has_token : Bool
  enum : EnumResult
  batch_size : Nat
  deriving DecidableEq

/-- Embedding of the JSON body returned by `import_photos`: `status` and
`imported_count` always; `total_found` and `pending_count` only on the
drive-with-remainder path (lines 1417-1424). -/
structure ImportResponse where
  status : String
  imported_count : Nat
  total_found : Option Nat
  pending_count : Option Nat
  deriving DecidableEq

/-- Arguments of the `asyncio.create_task(process_drive_photos_background
(...))` call of server.py lines 1405-1415 (job/room ids and token omitted):
`already_processed`, the remainder outcomes, and the batch size. -/
structure BgDriveCall where
  already : Nat
  remaining : List Bool
  batch_size : Nat
  deriving DecidableEq

/-- Observable result of one `import_photos` request: the job records written,
the photo records inserted synchronously, the scheduled drive continuation (if
any), and the HTTP result. -/
structure ImportRun where
  jobs : List JobRecord
  photos : List PhotoRec
  bg_drive : Option BgDriveCall
  result : Except PyErr ImportResponse

/-- Embedding of the local-import insert loop (server.py lines 1278-1294): one
photo record per scanned path, in scan order, with consecutive indices and no
`compressed_data` (compression is deferred to a background task per photo). -/
def mkLocalPhotos : Nat → List String → List PhotoRec
  | _, [] => []
  | i, path :: rest =>
      { source_type := "local", name := path, compressed := false, index := i } ::
      mkLocalPhotos (i + 1) rest

/-- Embedding of the synchronous initial-batch loop of the drive path
(server.py lines 1367-1389): an item that fails to download or compress is
skipped before the insert and before the index increment; a successful item is
inserted fully compressed. -/
def mkDrivePhotos : Nat → List Bool → List PhotoRec
  | _, [] => []
  | i, ok :: rest =>
      if ok then
        { source_type := "drive", name := "", compressed := true, index := i } ::
        mkDrivePhotos (i + 1) rest
      else
        mkDrivePhotos i rest

/-- Embedding of `compress_photo_background` (server.py lines 892-911) applied
to one photo record: on success the record gains its payload; on failure the
exception is logged and the record is left unchanged. -/
def compress_photo_background (p : PhotoRec) (ok : Bool) : PhotoRec :=
  if ok then { p with compressed := true } else p

/-- The background compression tasks scheduled by a local import, applied in
order: the k-th scheduled task compresses the k-th inserted photo with the
k-th outcome. -/
def run_compress_tasks (photos : List PhotoRec) (oks : List Bool) : List PhotoRec :=
  List.zipWith compress_photo_background photos oks

/-- Embedding of the body of the `try` block of `import_photos` (server.py
lines 1257-1443), from after the job insert up to but excluding the
`except` handler.  Returns either the raised exception or the final job
record, the inserted photos, the scheduled continuation and the JSON
response.  The dispatch, checks, error messages and branch results mirror the
source line by line; the starting photo index is `0` (the embedding takes the
room's photo collection to be empty at request start, which fixes
`current_index = 0`; the claims do not constrain indices across requests). -/
def import_photos_try (req : ImportReq) :
    Except PyErr (JobRecord × List PhotoRec × Option BgDriveCall × ImportResponse) :=
  if req.source_type == "local" then
    match req.folder_path with
    | none => .error (.httpExc 400 "Folder path required for local import")
    | some _ =>
        if req.scan_result.isEmpty then
          .error (.httpExc 400 "No image files found in the specified folder")
        else
          let n := req.scan_result.length
          .ok ({ status := "completed", total_photos := n,
                 processed_photos := n, failed_photos := 0 },
               mkLocalPhotos 0 req.scan_result, none,
               { status := "completed", imported_count := n,
                 total_found := none, pending_count := none })
  else if req.source_type == "drive" then
    match req.drive_folder_input with
    | none => .error (.httpExc 400 "Drive folder ID required")
    | some _ =>
        match req.extracted_id with
        | none => .error (.httpExc 400 "Invalid Google Drive folder ID or URL")
        | some _ =>
            if !req.has_token then
              .error (.valueError "Google Drive access requires user authentication. Please sign in with Google to import photos from Drive.")
            else
              match req.enum with
              | .authFail _ =>
                  .error (.httpExc 401 "Authentication required. This folder is private or you don't have access.")
              | .err m => .error (.otherExc m)
              | .ok files =>
                  if files.isEmpty then
                    .error (.httpExc 400 "No image files found in the Drive folder")
                  else
                    let initial := files.take req.batch_size
                    let remaining := files.drop req.batch_size
                    let imported := countSuccess initial
                    let photos := mkDrivePhotos 0 initial
                    if remaining.isEmpty then
                      .ok ({ status := "completed", total_photos := imported,
                             processed_photos := imported, failed_photos := 0 },
                           photos, none,
                           { status := "completed", imported_count := imported,
                             total_found := none, pending_count := none })
                    else
                      .ok ({ status := "processing",
                             total_photos := files.length,
                             processed_photos := imported, failed_photos := 0 },
                           photos,
                           some { already := imported, remaining := remaining,
                                  batch_size := req.batch_size },
                           { status := "processing", imported_count := imported,
                             total_found := some files.length,
                             pending_count := some remaining.length })
  else
    .ok ({ status := "completed", total_photos := 0, processed_photos := 0,
           failed_photos := 0 }, [], none,
         { status := "completed", imported_count := 0,
           total_found := none, pending_count := none })

/-- Embedding of `import_photos` (server.py lines 1238-1451).  A missing room
aborts with HTTP 404 before any write.  Otherwise a job record is inserted in
state `"processing"` with zero counters; then the `try` body runs: on success
its job update replaces the record, on any exception the handler of lines
1445-1451 marks the job `"failed"` and surfaces `HTTPException(500, str(e))`.
No photo record exists at the time any of the modelled exceptions is
raised. -/
def import_photos (req : ImportReq) : ImportRun :=
  if !req.room_exists then
    { jobs := [], photos := [], bg_drive := none,
      result := .error (.httpExc 404 "Room not found") }
  else
    match import_photos_try req with
    | .ok (job, photos, bg, resp) =>
        { jobs := [job], photos := photos, bg_drive := bg, result := .ok resp }
    | .error e =>
        { jobs := [{ status := "failed", total_photos := 0,
                     processed_photos := 0, failed_photos := 0 }],
          photos := [], bg_drive := none,
          result := .error (.httpExc 500 (strOfErr e)) }

/-! ### Helper lemmas -/

theorem countSuccess_append (l m : List Bool) :
    countSuccess (l ++ m) = countSuccess l + countSuccess m := by
  simp [countSuccess, List.filter_append]

theorem countFails_append (l m : List Bool) :
    countFails (l ++ m) = countFails l + countFails m := by
  simp [countFails, List.filter_append]

theorem countSuccess_add_countFails (l : List Bool) :
    countSuccess l + countFails l = l.length := by
  induction l with
  | nil => rfl
  | cons b rest ih =>
      cases b <;> simp [countSuccess, countFails, List.filter_cons] at * <;> omega

theorem countSuccess_le_length (l : List Bool) : countSuccess l ≤ l.length := by
  have := countSuccess_add_countFails l
  omega

theorem countFails_eq_zero_iff (l : List Bool) :
    countFails l = 0 ↔ ∀ b ∈ l, b = true := by
  simp only [countFails, List.length_eq_zero, List.filter_eq_nil_iff]
  constructor
  · intro h b hb
    have := h b hb
    simpa using this
  · intro h b hb
    simp [h b hb]

theorem countSuccess_eq_length (l : List Bool) (h : ∀ b ∈ l, b = true) :
    countSuccess l = l.length := by
  have h0 : countFails l = 0 := (countFails_eq_zero_iff l).mpr h
  have := countSuccess_add_countFails l
  omega

theorem countFails_lt_length_iff (l : List Bool) :
    countFails l < l.length ↔ ∃ b ∈ l, b = true := by
  have hsum := countSuccess_add_countFails l
  constructor
  · intro h
    have hs : 0 < countSuccess l := by omega
    have hne : l.filter (fun b => b) ≠ [] := by
      intro hnil
      simp [countSuccess, hnil] at hs
    obtain ⟨b, hb⟩ := List.exists_mem_of_ne_nil _ hne
    have hb' := List.mem_filter.mp hb
    exact ⟨b, hb'.1, by simpa using hb'.2⟩
  · intro ⟨b, hb, hbt⟩
    have hs : 0 < countSuccess l := by
      have hmem : b ∈ l.filter (fun b => b) := List.mem_filter.mpr ⟨hb, by simp [hbt]⟩
      have := List.length_pos.mpr (List.ne_nil_of_mem hmem)
      simpa [countSuccess] using this
    omega

theorem foldl_stepItem (l : List Bool) (p f : Nat) :
    l.foldl stepItem (p, f) = (p + countSuccess l, f + countFails l) := by
  induction l generalizing p f with
  | nil => simp [countSuccess, countFails]
  | cons b rest ih =>
      cases b <;>
        simp [List.foldl_cons, stepItem, ih, countSuccess, countFails,
          List.filter_cons] <;> omega

theorem chunks_flatten (bs : Nat) (l : List α) : (chunks bs l).flatten = l := by
  induction l using chunks.induct bs with
  | case1 => simp [chunks]
  | case2 x xs ih =>
      rw [chunks]
      simp [List.flatten_cons, ih]

theorem runBatchesAcc_eq (cs : List (List Bool)) (p f : Nat) :
    runBatchesAcc (p, f) cs = (p + countSuccess cs.flatten, f + countFails cs.flatten) := by
  induction cs generalizing p f with
  | nil => simp [runBatchesAcc, countSuccess, countFails]
  | cons b rest ih =>
      rw [runBatchesAcc, foldl_stepItem, ih]
      simp [List.flatten_cons, countSuccess_append, countFails_append]
      omega

/-- Projection forgetting the `rank` field (used to relate the list before and
after rank assignment). -/
def stripRank (r : PhotoRanking) : PhotoRanking :=
  { r with rank := 0 }

theorem assignRanks_map_stripRank (n : Nat) (l : List PhotoRanking) :
    (assignRanks n l).map stripRank = l.map stripRank := by
  induction l generalizing n with
  | nil => rfl
  | cons r rs ih => simp [assignRanks, stripRank, ih]

theorem assignRanks_length (n : Nat) (l : List PhotoRanking) :
    (assignRanks n l).length = l.length := by
  induction l generalizing n with
  | nil => rfl
  | cons r rs ih => simp [assignRanks, ih]

theorem assignRanks_map_rank (n : Nat) (l : List PhotoRanking) :
    (assignRanks n l).map (fun r => r.rank) = List.range' n l.length := by
  induction l generalizing n with
  | nil => rfl
  | cons r rs ih => simp [assignRanks, List.range'_succ, ih]

theorem mem_assignRanks_of_mem (n : Nat) (l : List PhotoRanking) (r : PhotoRanking)
    (h : r ∈ assignRanks n l) : ∃ s ∈ l, stripRank r = stripRank s := by
  induction l generalizing n with
  | nil => simp [assignRanks] at h
  | cons a as ih =>
      rw [assignRanks] at h
      rcases List.mem_cons.mp h with h | h
      · exact ⟨a, List.mem_cons_self a as, by simp [h, stripRank]⟩
      · obtain ⟨s, hs, hstrip⟩ := ih (n + 1) h
        exact ⟨s, List.mem_cons_of_mem a hs, hstrip⟩

theorem exists_assignRanks_of_mem (n : Nat) (l : List PhotoRanking) (s : PhotoRanking)
    (h : s ∈ l) : ∃ r ∈ assignRanks n l, stripRank r = stripRank s := by
  induction l generalizing n with
  | nil => simp at h
  | cons a as ih =>
      rcases List.mem_cons.mp h with h | h
      · exact ⟨{ a with rank := n }, by rw [assignRanks]; exact List.mem_cons_self _ _,
          by simp [h, stripRank]⟩
      · obtain ⟨r, hr, hstrip⟩ := ih (n + 1) h
        exact ⟨r, by rw [assignRanks]; exact List.mem_cons_of_mem _ hr, hstrip⟩

theorem stripRank_ws (r : PhotoRanking) : (stripRank r).weighted_score = r.weighted_score := rfl

theorem stripRank_pid (r : PhotoRanking) : (stripRank r).photo_id = r.photo_id := rfl

theorem assignRanks_pairwise (n : Nat) (l : List PhotoRanking)
    (h : l.Pairwise wsDesc) : (assignRanks n l).Pairwise wsDesc := by
  induction l generalizing n with
  | nil => simp [assignRanks]
  | cons a as ih =>
      rw [assignRanks]
      rcases List.pairwise_cons.mp h with ⟨ha, has⟩
      refine List.pairwise_cons.mpr ⟨?_, ih (n + 1) has⟩
      intro b hb
      obtain ⟨s, hs, hstrip⟩ := mem_assignRanks_of_mem (n + 1) as b hb
      have hws : b.weighted_score = s.weighted_score := by
        have := congrArg PhotoRanking.weighted_score hstrip
        simpa [stripRank] using this
      show b.weighted_score ≤ _
      simp only [hws]
      exact ha s hs

theorem assignRanks_filter_ws (n : Nat) (q : Rat) (l : List PhotoRanking) :
    ((assignRanks n l).filter (fun r => r.weighted_score == q)).map (fun r => r.photo_id)
      = (l.filter (fun r => r.weighted_score == q)).map (fun r => r.photo_id) := by
  induction l generalizing n with
  | nil => rfl
  | cons a as ih =>
      rw [assignRanks]
      by_cases hq : a.weighted_score = q
      · simp [List.filter_cons, hq, ih]
      · simp [List.filter_cons, hq, ih]

theorem filter_orderedInsert_ws (q : Rat) (a : PhotoRanking) (l : List PhotoRanking) :
    (List.orderedInsert wsDesc a l).filter (fun x => x.weighted_score == q)
      = if a.weighted_score == q then
          a :: l.filter (fun x => x.weighted_score == q)
        else
          l.filter (fun x => x.weighted_score == q) := by
  induction l with
  | nil => simp [List.orderedInsert, List.filter_cons]
  | cons b t ih =>
      rw [List.orderedInsert]
      by_cases hab : wsDesc a b
      · simp only [if_pos hab]
        by_cases haq : a.weighted_score = q <;> simp [List.filter_cons, haq]
      · simp only [if_neg hab]
        have hlt : a.weighted_score < b.weighted_score := by
          unfold wsDesc at hab
          exact lt_of_not_le hab
        by_cases haq : a.weighted_score = q
        · have hbq : ¬ b.weighted_score = q := by
            intro hbq
            rw [haq, hbq] at hlt
            exact lt_irrefl _ hlt
          simp [List.filter_cons, hbq, ih, haq]
        · by_cases hbq : b.weighted_score = q <;>
            simp [List.filter_cons, hbq, ih, haq]

theorem insertionSort_filter_ws (q : Rat) (l : List PhotoRanking) :
    (List.insertionSort wsDesc l).filter (fun x => x.weighted_score == q)
      = l.filter (fun x => x.weighted_score == q) := by
  induction l with
  | nil => rfl
  | cons a t ih =>
      rw [List.insertionSort, filter_orderedInsert_ws, ih]
      by_cases haq : a.weighted_score = q <;> simp [List.filter_cons, haq]

/-- Counter movement across one Continuation-Task progress update:
`processed_photos` and `failed_photos` do not decrease and `total_photos`
does not increase. -/
def contMono (a b : JobRecord) : Prop :=
  a.processed_photos ≤ b.processed_photos ∧
  a.failed_photos ≤ b.failed_photos ∧
  b.total_photos ≤ a.total_photos

theorem chain'_runBatchesStates (already R : Nat) (acc : Nat × Nat)
    (cs : List (List Bool)) :
    List.Chain' contMono (accState already R acc :: runBatchesStates already R acc cs) := by
  induction cs generalizing acc with
  | nil => simp [runBatchesStates]
  | cons b rest ih =>
      rw [runBatchesStates]
      have hacc : b.foldl stepItem acc = (acc.1 + countSuccess b, acc.2 + countFails b) := by
        rw [← foldl_stepItem b acc.1 acc.2]
      refine List.chain'_cons.mpr ⟨?_, ?_⟩
      · refine ⟨?_, ?_, ?_⟩ <;> simp only [accState, hacc] <;> omega
      · exact ih (b.foldl stepItem acc)

theorem chain'_runBatchesStates_total_eq (already R : Nat) (acc : Nat × Nat)
    (cs : List (List Bool)) (hng : ∀ c ∈ cs, countFails c = 0) :
    List.Chain' (fun a b => a.total_photos ≤ b.total_photos)
      (accState already R acc :: runBatchesStates already R acc cs) := by
  induction cs generalizing acc with
  | nil => simp [runBatchesStates]
  | cons b rest ih =>
      rw [runBatchesStates]
      have hacc : b.foldl stepItem acc = (acc.1 + countSuccess b, acc.2 + countFails b) := by
        rw [← foldl_stepItem b acc.1 acc.2]
      have hb0 : countFails b = 0 := hng b (List.mem_cons_self _ _)
      refine List.chain'_cons.mpr ⟨?_, ?_⟩
      · simp [accState, hacc, hb0]
      · exact ih (b.foldl stepItem acc) (fun c hc => hng c (List.mem_cons_of_mem b hc))

theorem dictGet_dictPop (d : List (String × α)) (k : String) :
    dictGet (dictPop d k) k = none := by
  have : (dictPop d k).find? (fun p => p.1 == k) = none := by
    rw [List.find?_eq_none]
    intro x hx
    have := (List.mem_filter.mp hx).2
    simpa using this
  simp [dictGet, this]

theorem store_foldl_invalidate (c : TTLCache V) (ks : List String) :
    (ks.foldl (fun acc k => acc.invalidate k) c).store
      = c.store.filter (fun en => !(ks.contains en.1)) := by
  induction ks generalizing c with
  | nil => simp
  | cons k rest ih =>
      rw [List.foldl_cons, ih]
      show (dictPop c.store k).filter _ = _
      rw [dictPop, List.filter_filter]
      apply List.filter_congr
      intro x _
      simp only [List.contains_cons]
      by_cases hk : x.1 = k
      · simp [hk]
      · simp [hk, Bool.and_comm]

theorem invalidatePre_store (c : TTLCache V) (pre : String) :
    (TTLCache.invalidatePre c pre).store
      = c.store.filter (fun en => !(en.1.startsWith pre)) := by
  rw [TTLCache.invalidatePre, store_foldl_invalidate]
  apply List.filter_congr
  intro x hx
  by_cases hs : x.1.startsWith pre
  · have : x.1 ∈ (c.store.map Prod.fst).filter (fun k => k.startsWith pre) :=
      List.mem_filter.mpr ⟨List.mem_map.mpr ⟨x, hx, rfl⟩, hs⟩
    simp [this, hs]
  · have : x.1 ∉ (c.store.map Prod.fst).filter (fun k => k.startsWith pre) := by
      intro hmem
      exact hs ((List.mem_filter.mp hmem).2)
    simp [this, hs]

/-! ### Vote helper lemmas -/

theorem length_updateFirst (p : Vote → Bool) (f : Vote → Vote) (l : List Vote) :
    (updateFirst p f l).length = l.length := by
  induction l with
  | nil => rfl
  | cons v vs ih =>
      rw [updateFirst]
      by_cases hv : p v <;> simp [hv, ih]

theorem mem_updateFirst (p : Vote → Bool) (f : Vote → Vote) (l : List Vote)
    (b : Vote) (h : b ∈ updateFirst p f l) : b ∈ l ∨ ∃ w ∈ l, b = f w := by
  induction l with
  | nil => simp [updateFirst] at h
  | cons v vs ih =>
      rw [updateFirst] at h
      by_cases hv : p v
      · rw [if_pos hv] at h
        rcases List.mem_cons.mp h with h | h
        · exact Or.inr ⟨v, List.mem_cons_self v vs, h⟩
        · exact Or.inl (List.mem_cons_of_mem v h)
      · rw [if_neg hv] at h
        rcases List.mem_cons.mp h with h | h
        · exact Or.inl (h ▸ List.mem_cons_self v vs)
        · rcases ih h with h | ⟨w, hw, hfw⟩
          · exact Or.inl (List.mem_cons_of_mem v h)
          · exact Or.inr ⟨w, List.mem_cons_of_mem v hw, hfw⟩

theorem uniqueVotes_updateFirst (p : Vote → Bool) (s : Int) (t : Nat)
    (l : List Vote) (h : uniqueVotes l) :
    uniqueVotes (updateFirst p (fun v => { v with score := s, timestamp := t }) l) := by
  unfold uniqueVotes at *
  induction l with
  | nil => simp [updateFirst]
  | cons v vs ih =>
      rcases List.pairwise_cons.mp h with ⟨hv, hvs⟩
      rw [updateFirst]
      by_cases hp : p v
      · rw [if_pos hp]
        refine List.pairwise_cons.mpr ⟨?_, hvs⟩
        intro b hb
        exact hv b hb
      · rw [if_neg hp]
        refine List.pairwise_cons.mpr ⟨?_, ih hvs⟩
        intro b hb
        rcases mem_updateFirst _ _ vs b hb with hmem | ⟨w, hw, hfw⟩
        · exact hv b hmem
        · subst hfw
          exact hv w hw

theorem exists_mem_updateFirst (p : Vote → Bool) (f : Vote → Vote) (l : List Vote)
    (h : ∃ v ∈ l, p v = true) :
    ∃ v ∈ l, p v = true ∧ f v ∈ updateFirst p f l := by
  induction l with
  | nil => simp at h
  | cons v vs ih =>
      by_cases hp : p v
      · exact ⟨v, List.mem_cons_self v vs, hp, by
          rw [updateFirst, if_pos hp]; exact List.mem_cons_self _ _⟩
      · obtain ⟨w, hw, hpw⟩ := h
        rcases List.mem_cons.mp hw with hvw | hw'
        · exact absurd (hvw ▸ hpw) (by simpa using hp)
        · obtain ⟨u, hu, hpu, hmem⟩ := ih ⟨w, hw', hpw⟩
          exact ⟨u, List.mem_cons_of_mem v hu, hpu, by
            rw [updateFirst, if_neg hp]; exact List.mem_cons_of_mem v hmem⟩

theorem uniqueVotes_eraseIdx (l : List Vote) (i : Nat) (h : uniqueVotes l) :
    uniqueVotes (l.eraseIdx i) :=
  List.Pairwise.sublist (List.eraseIdx_sublist l i) h

theorem voteMatches_iff (r p u : String) (v : Vote) :
    voteMatches r p u v = true ↔ (v.room_id = r ∧ v.photo_id = p ∧ v.user_id = u) := by
  simp [voteMatches, Bool.and_eq_true, and_assoc]

/-- Closed form of the final job update of the Continuation Task. -/
theorem process_drive_final (already : Nat) (outcomes : List Bool) (bs : Nat) :
    (process_drive_photos_background already outcomes bs).2
      = { status := if countFails outcomes < outcomes.length then "completed" else "failed"
          total_photos := already + countSuccess outcomes
          processed_photos := already + countSuccess outcomes
          failed_photos := countFails outcomes } := by
  unfold process_drive_photos_background
  simp only [runBatchesAcc_eq, chunks_flatten, Nat.zero_add]

/-- Arithmetic mean of the scores of a list of votes, `0` when the list is
empty (the spec's "weightedScore = mean(scores) (0 if no votes)"). -/
def scoreMean (vs : List Vote) : Rat :=
  if vs.isEmpty then 0 else ((vs.map (fun v => (v.score : Rat))).sum) / (vs.length : Rat)

theorem rankingEntry_weighted_score (votes : List Vote) (ph : Photo) :
    (rankingEntry votes ph).weighted_score = scoreMean (votesFor votes ph.photo_id) := rfl

theorem mkLocalPhotos_map_name (i : Nat) (scan : List String) :
    (mkLocalPhotos i scan).map (fun p => p.name) = scan := by
  induction scan generalizing i with
  | nil => rfl
  | cons path rest ih => simp [mkLocalPhotos, ih]

theorem mkLocalPhotos_compressed (i : Nat) (scan : List String) (p : PhotoRec)
    (h : p ∈ mkLocalPhotos i scan) : p.compressed = false := by
  induction scan generalizing i with
  | nil => simp [mkLocalPhotos] at h
  | cons path rest ih =>
      rw [mkLocalPhotos] at h
      rcases List.mem_cons.mp h with h | h
      · simp [h]
      · exact ih (i + 1) h

theorem run_compress_tasks_map_compressed (scan : List String) (oks : List Bool)
    (i : Nat) (hlen : oks.length = scan.length) :
    (run_compress_tasks (mkLocalPhotos i scan) oks).map (fun p => p.compressed) = oks := by
  induction scan generalizing i oks with
  | nil =>
      have : oks = [] := List.length_eq_zero.mp hlen
      simp [this, run_compress_tasks, mkLocalPhotos]
  | cons path rest ih =>
      match oks with
      | [] => simp at hlen
      | o :: os =>
          have hlen' : os.length = rest.length := by simpa using hlen
          cases o <;>
            simp [run_compress_tasks, mkLocalPhotos, compress_photo_background,
              List.zipWith_cons_cons] <;>
            exact ih os (i + 1) hlen'

theorem run_compress_tasks_map_name (scan : List String) (oks : List Bool)
    (i : Nat) (hlen : oks.length = scan.length) :
    (run_compress_tasks (mkLocalPhotos i scan) oks).map (fun p => p.name) = scan := by
  induction scan generalizing i oks with
  | nil =>
      have : oks = [] := List.length_eq_zero.mp hlen
      simp [this, run_compress_tasks, mkLocalPhotos]
  | cons path rest ih =>
      match oks with
      | [] => simp at hlen
      | o :: os =>
          have hlen' : os.length = rest.length := by simpa using hlen
          cases o <;>
            simp [run_compress_tasks, mkLocalPhotos, compress_photo_background,
              List.zipWith_cons_cons] <;>
            exact ih os (i + 1) hlen'

/-! ### Claim theorems -/

/-- C6: for every TTLCache instance, `get(key)` returns the absent result for
any key whose expiry instant has passed (even if never explicitly
invalidated) and removes that stale entry from the store on that access; and
`invalidate_prefix(p)` removes exactly the entries whose key has `p` as a
literal string prefix, leaving every entry whose key does not start with `p`
unchanged. -/
theorem C6_ttlcache_lazy_expiry_and_invalidation {V : Type} (c : TTLCache V)
    (now : Nat) (key pre : String)
    (hexp : ∃ e, dictGet c.expiry key = some e ∧ e < now) :
    (TTLCache.get c now key).1 = none
    ∧ dictGet (TTLCache.get c now key).2.store key = none
    ∧ (TTLCache.invalidatePre c pre).store
        = c.store.filter (fun en => !(en.1.startsWith pre)) := by
  obtain ⟨e, he, hlt⟩ := hexp
  have hcond : ((dictGet c.store key).isSome
      && decide (now < (dictGet c.expiry key).getD 0)) = false := by
    rw [he]
    simp [Nat.not_lt.mpr (le_of_lt hlt)]
  refine ⟨?_, ?_, invalidatePre_store c pre⟩
  · simp [TTLCache.get, hcond]
  · simp [TTLCache.get, hcond, dictGet_dictPop]

/-- Witness for C6 at a concrete cache: key `"photos:R:0"` stored with expiry
instant 5 and read at time 10, so its expiry has passed; the cache also holds
an entry for another room which survives the `"photos:R:"` invalidation. -/
theorem C6_witness :
    (∃ e, dictGet (TTLCache.mk [("photos:R:0", 1), ("photos:S:0", 2)]
        [("photos:R:0", 5), ("photos:S:0", 99)] 30 : TTLCache Nat).expiry
        "photos:R:0" = some e ∧ e < 10)
    ∧ ((TTLCache.get (TTLCache.mk [("photos:R:0", 1), ("photos:S:0", 2)]
          [("photos:R:0", 5), ("photos:S:0", 99)] 30 : TTLCache Nat) 10 "photos:R:0").1 = none
      ∧ dictGet (TTLCache.get (TTLCache.mk [("photos:R:0", 1), ("photos:S:0", 2)]
          [("photos:R:0", 5), ("photos:S:0", 99)] 30 : TTLCache Nat) 10 "photos:R:0").2.store
          "photos:R:0" = none
      ∧ (TTLCache.invalidatePre (TTLCache.mk [("photos:R:0", 1), ("photos:S:0", 2)]
          [("photos:R:0", 5), ("photos:S:0", 99)] 30 : TTLCache Nat) "photos:R:").store
          = ((TTLCache.mk [("photos:R:0", 1), ("photos:S:0", 2)]
              [("photos:R:0", 5), ("photos:S:0", 99)] 30 : TTLCache Nat)).store.filter
              (fun en => !(en.1.startsWith "photos:R:"))) :=
  ⟨⟨5, rfl, by decide⟩,
   C6_ttlcache_lazy_expiry_and_invalidation _ 10 "photos:R:0" "photos:R:"
     ⟨5, rfl, by decide⟩⟩

/-- C10: the fixed discrete set of allowed vote scores is exactly
`{-3, -2, -1, 1, 2, 3}`; a vote submission with any other integer score — in
particular score 0 — is rejected with an InvalidInput (HTTP 400) error before
any read or write, leaving all vote records unchanged (the operation produces
no new vote list). -/
theorem C10_vote_score_allowlist (votes : List Vote) (r p u : String) (now : Nat) :
    allowedScores = [-3, -2, -1, 1, 2, 3]
    ∧ (∀ s : Int, (∃ vs, create_vote votes r p u s now = .ok vs) ↔ s ∈ allowedScores)
    ∧ create_vote votes r p u 0 now
        = .error (.httpExc 400 "Invalid score. Must be -3, -2, -1, 1, 2, or 3") := by
  refine ⟨rfl, ?_, ?_⟩
  · intro s
    constructor
    · rintro ⟨vs, hvs⟩
      by_contra hmem
      rw [create_vote, if_neg hmem] at hvs
      cases hvs
    · intro hmem
      rcases hfind : votes.find? (voteMatches r p u) with _ | v
      · exact ⟨_, by rw [create_vote, if_pos hmem, hfind]⟩
      · exact ⟨_, by rw [create_vote, if_pos hmem, hfind]⟩
  · rw [create_vote, if_neg (by decide)]

/-- C7: submitting a vote for a (room, photo, user) triple that already has a
vote record updates that record's score and timestamp in place rather than
inserting a new record, so at all times at most one vote record exists per
triple; this uniqueness is preserved by every vote operation (`create_vote`
and the `undo_vote` deletion). -/
theorem C7_vote_upsert_uniqueness (votes : List Vote) (r p u : String) (s : Int)
    (now : Nat) (hu : uniqueVotes votes) :
    (∀ votes', create_vote votes r p u s now = .ok votes' →
      uniqueVotes votes'
      ∧ ((∃ v ∈ votes, voteMatches r p u v = true) →
          votes'.length = votes.length
          ∧ ∃ v ∈ votes', voteMatches r p u v = true ∧ v.score = s ∧ v.timestamp = now))
    ∧ (∀ i, uniqueVotes (undo_vote votes i)) := by
  constructor
  · intro votes' h
    rw [create_vote] at h
    by_cases hs : s ∈ allowedScores
    · rw [if_pos hs] at h
      rcases hfind : votes.find? (voteMatches r p u) with _ | v
      · rw [hfind] at h
        injection h with h
        subst h
        constructor
        · unfold uniqueVotes at *
          rw [List.pairwise_append]
          refine ⟨hu, List.pairwise_singleton _ _, ?_⟩
          intro a ha b hb
          rcases List.mem_singleton.mp hb with rfl
          have hna : voteMatches r p u a = false := by
            have := List.find?_eq_none.mp hfind a ha
            simpa using this
          intro ⟨h1, h2, h3⟩
          have hma : voteMatches r p u a = true := by
            rw [voteMatches_iff]
            exact ⟨by simpa using h1, by simpa using h2, by simpa using h3⟩
          rw [hna] at hma
          cases hma
        · rintro ⟨v, hv, hmv⟩
          exact absurd hmv (by simp [List.find?_eq_none.mp hfind v hv])
      · rw [hfind] at h
        injection h with h
        subst h
        refine ⟨uniqueVotes_updateFirst _ s now votes hu, ?_⟩
        intro hex
        refine ⟨length_updateFirst _ _ votes, ?_⟩
        obtain ⟨w, hw, hpw, hmem⟩ := exists_mem_updateFirst
          (voteMatches r p u) (fun v => { v with score := s, timestamp := now }) votes hex
        refine ⟨{ w with score := s, timestamp := now }, hmem, ?_, rfl, rfl⟩
        rw [voteMatches_iff] at hpw ⊢
        exact hpw
    · rw [if_neg hs] at h
      cases h
  · intro i
    exact uniqueVotes_eraseIdx votes i hu

/-- Witness for C7 at a concrete store: one existing vote by the triple
(`"r"`, `"p"`, `"u"`) with score 1; re-voting with score 2 at time 5 keeps the
store unique, keeps its length 1, and the stored vote carries the new score
and timestamp. -/
theorem C7_witness :
    uniqueVotes [Vote.mk "r" "p" "u" 1 0]
    ∧ (uniqueVotes (updateFirst (voteMatches "r" "p" "u")
          (fun v => { v with score := 2, timestamp := 5 }) [Vote.mk "r" "p" "u" 1 0])
      ∧ ((∃ v ∈ [Vote.mk "r" "p" "u" 1 0], voteMatches "r" "p" "u" v = true) →
          (updateFirst (voteMatches "r" "p" "u")
              (fun v => { v with score := 2, timestamp := 5 })
              [Vote.mk "r" "p" "u" 1 0]).length = [Vote.mk "r" "p" "u" 1 0].length
          ∧ ∃ v ∈ updateFirst (voteMatches "r" "p" "u")
              (fun v => { v with score := 2, timestamp := 5 }) [Vote.mk "r" "p" "u" 1 0],
              voteMatches "r" "p" "u" v = true ∧ v.score = 2 ∧ v.timestamp = 5)) :=
  ⟨by simp [uniqueVotes],
   (C7_vote_upsert_uniqueness [Vote.mk "r" "p" "u" 1 0] "r" "p" "u" 2 5
       (by simp [uniqueVotes])).1 _ (by rfl)⟩

/-- C5: for every room, `computeRankings` returns a list sorted in
non-increasing `weighted_score` order with ties kept in original iteration
order (stable sort: among the entries of any given score, photo ids appear in
the pre-sort order), each included photo's `weighted_score` equals the
arithmetic mean of its vote scores (0 when it has no votes) and its
`vote_count` equals its number of votes, and the rank fields are exactly
`1..N` in list position order. -/
theorem C5_rankings_sorted_stable_mean_ranks (photos : List Photo) (votes : List Vote) :
    (calculate_photo_rankings photos votes).Pairwise wsDesc
    ∧ (∀ q : Rat,
        ((calculate_photo_rankings photos votes).filter
            (fun x => x.weighted_score == q)).map (fun x => x.photo_id)
          = ((rankingBase photos votes).filter
              (fun x => x.weighted_score == q)).map (fun x => x.photo_id))
    ∧ (∀ x ∈ calculate_photo_rankings photos votes, ∃ ph ∈ photos,
        x.photo_id = ph.photo_id
        ∧ x.weighted_score = scoreMean (votesFor votes ph.photo_id)
        ∧ x.vote_count = (votesFor votes ph.photo_id).length)
    ∧ (calculate_photo_rankings photos votes).map (fun x => x.rank)
        = List.range' 1 (calculate_photo_rankings photos votes).length := by
  refine ⟨?_, ?_, ?_, ?_⟩
  · exact assignRanks_pairwise 1 _ (List.sorted_insertionSort wsDesc (rankingBase photos votes))
  · intro q
    rw [calculate_photo_rankings, assignRanks_filter_ws, insertionSort_filter_ws]
  · intro x hx
    obtain ⟨y, hy, hstrip⟩ := mem_assignRanks_of_mem 1 _ x hx
    have hybase : y ∈ rankingBase photos votes :=
      (List.mem_insertionSort wsDesc).mp hy
    obtain ⟨ph, hph, hentry⟩ := List.mem_map.mp hybase
    have hphmem : ph ∈ photos := (List.mem_filter.mp hph).1
    have hpid : x.photo_id = y.photo_id := by
      have := congrArg PhotoRanking.photo_id hstrip
      simpa [stripRank] using this
    have hws : x.weighted_score = y.weighted_score := by
      have := congrArg PhotoRanking.weighted_score hstrip
      simpa [stripRank] using this
    have hvc : x.vote_count = y.vote_count := by
      have := congrArg PhotoRanking.vote_count hstrip
      simpa [stripRank] using this
    refine ⟨ph, hphmem, ?_, ?_, ?_⟩
    · rw [hpid, ← hentry]
      rfl
    · rw [hws, ← hentry, rankingEntry_weighted_score]
    · rw [hvc, ← hentry]
      rfl
  · rw [calculate_photo_rankings, assignRanks_map_rank, assignRanks_length]

/-- C4 counterexample: a local-sourced photo with no ready payload DOES appear
in the ranking (the skip test of server.py lines 352-354 only fires for
`source_type == "drive"`), contradicting "a photo with no ready payload never
appears in the result (regardless of its source kind)". -/
theorem C4_counterexample :
    ∃ x ∈ calculate_photo_rankings
        [{ photo_id := "p1", filename := "a.jpg", source_type := "local",
           compressed_data := none }] [],
      x.photo_id = "p1" ∧ pyFalsy x.compressed_data = true := by
  decide

/-- C4 amended: `computeRankings` excludes exactly the photos skipped by the
drive-without-payload test: an entry whose payload is absent/empty and whose
source kind is drive never appears; every photo the test keeps (every photo
with a ready payload, and every non-drive photo even without one) appears;
and a kept photo with zero votes appears with `weighted_score = 0` and
`vote_count = 0`. -/
theorem C4_amended_ready_payload_filter (photos : List Photo) (votes : List Vote) :
    (∀ x ∈ calculate_photo_rankings photos votes,
        ¬(pyFalsy x.compressed_data = true ∧ x.source_type = "drive"))
    ∧ (∀ ph ∈ photos, keepInRanking ph = true →
        ph.photo_id ∈ (calculate_photo_rankings photos votes).map (fun x => x.photo_id))
    ∧ (∀ ph ∈ photos, keepInRanking ph = true → votesFor votes ph.photo_id = [] →
        ∃ x ∈ calculate_photo_rankings photos votes,
          x.photo_id = ph.photo_id ∧ x.weighted_score = 0 ∧ x.vote_count = 0) := by
  refine ⟨?_, ?_, ?_⟩
  · intro x hx
    obtain ⟨y, hy, hstrip⟩ := mem_assignRanks_of_mem 1 _ x hx
    obtain ⟨ph, hph, hentry⟩ := List.mem_map.mp ((List.mem_insertionSort wsDesc).mp hy)
    have hkeep : keepInRanking ph = true := (List.mem_filter.mp hph).2
    have hcd : x.compressed_data = ph.compressed_data := by
      have h1 := congrArg PhotoRanking.compressed_data hstrip
      have h2 := congrArg PhotoRanking.compressed_data hentry
      simp only [stripRank] at h1
      rw [h1, ← h2]
      rfl
    have hst : x.source_type = ph.source_type := by
      have h1 := congrArg PhotoRanking.source_type hstrip
      have h2 := congrArg PhotoRanking.source_type hentry
      simp only [stripRank] at h1
      rw [h1, ← h2]
      rfl
    rw [hcd, hst]
    rw [keepInRanking] at hkeep
    intro ⟨hfalsy, hdrive⟩
    simp [hfalsy, hdrive] at hkeep
  · intro ph hph hkeep
    have hfilter : ph ∈ photos.filter keepInRanking := List.mem_filter.mpr ⟨hph, hkeep⟩
    have hbase : rankingEntry votes ph ∈ rankingBase photos votes :=
      List.mem_map.mpr ⟨ph, hfilter, rfl⟩
    have hsorted : rankingEntry votes ph ∈ List.insertionSort wsDesc (rankingBase photos votes) :=
      (List.mem_insertionSort wsDesc).mpr hbase
    obtain ⟨x, hx, hstrip⟩ := exists_assignRanks_of_mem 1 _ _ hsorted
    refine List.mem_map.mpr ⟨x, hx, ?_⟩
    have := congrArg PhotoRanking.photo_id hstrip
    simpa [stripRank, rankingEntry] using this
  · intro ph hph hkeep hnov
    have hfilter : ph ∈ photos.filter keepInRanking := List.mem_filter.mpr ⟨hph, hkeep⟩
    have hbase : rankingEntry votes ph ∈ rankingBase photos votes :=
      List.mem_map.mpr ⟨ph, hfilter, rfl⟩
    have hsorted : rankingEntry votes ph ∈ List.insertionSort wsDesc (rankingBase photos votes) :=
      (List.mem_insertionSort wsDesc).mpr hbase
    obtain ⟨x, hx, hstrip⟩ := exists_assignRanks_of_mem 1 _ _ hsorted
    refine ⟨x, hx, ?_, ?_, ?_⟩
    · have := congrArg PhotoRanking.photo_id hstrip
      simpa [stripRank, rankingEntry] using this
    · have := congrArg PhotoRanking.weighted_score hstrip
      simp only [stripRank] at this
      rw [this, rankingEntry_weighted_score, scoreMean, hnov]
      rfl
    · have := congrArg PhotoRanking.vote_count hstrip
      simp only [stripRank] at this
      rw [this]
      show (votesFor votes ph.photo_id).length = 0
      rw [hnov]
      rfl

/-- Witness for C4 amended at a concrete room: a ready drive photo with no
votes is kept by the skip test and appears in the ranking with score 0. -/
theorem C4_amended_witness :
    keepInRanking (Photo.mk "p2" "b.jpg" "drive" (some "xyz")) = true
    ∧ votesFor [] "p2" = []
    ∧ ∃ x ∈ calculate_photo_rankings [Photo.mk "p2" "b.jpg" "drive" (some "xyz")] [],
        x.photo_id = (Photo.mk "p2" "b.jpg" "drive" (some "xyz")).photo_id
        ∧ x.weighted_score = 0 ∧ x.vote_count = 0 :=
  ⟨by decide, rfl,
   (C4_amended_ready_payload_filter [Photo.mk "p2" "b.jpg" "drive" (some "xyz")] []).2.2
     _ (by simp) (by decide) rfl⟩

/-- C2: for every run of the Continuation Task over a non-empty remainder
list that reaches the last batch without a top-level crash (the crash-free
assumption is built into the embedding), the job's final status is
`"completed"` if at least one remainder item was processed successfully and
`"failed"` if every remainder item failed, and the final counters are
recorded in the job record at that point
(`processed_photos = total_photos = already + successes`,
`failed_photos = failures`). -/
theorem C2_continuation_final_status (already : Nat) (outcomes : List Bool)
    (bs : Nat) (_hne : outcomes ≠ []) :
    ((process_drive_photos_background already outcomes bs).2.status = "completed"
      ↔ ∃ b ∈ outcomes, b = true)
    ∧ ((process_drive_photos_background already outcomes bs).2.status = "failed"
      ↔ ∀ b ∈ outcomes, b = false)
    ∧ (process_drive_photos_background already outcomes bs).2.processed_photos
        = already + countSuccess outcomes
    ∧ (process_drive_photos_background already outcomes bs).2.total_photos
        = already + countSuccess outcomes
    ∧ (process_drive_photos_background already outcomes bs).2.failed_photos
        = countFails outcomes := by
  rw [process_drive_final]
  by_cases hlt : countFails outcomes < outcomes.length
  · rw [if_pos hlt]
    refine ⟨?_, ?_, rfl, rfl, rfl⟩
    · simp [(countFails_lt_length_iff outcomes).mp hlt]
    · constructor
      · intro h
        simp at h
      · intro hall
        obtain ⟨b, hb, hbt⟩ := (countFails_lt_length_iff outcomes).mp hlt
        rw [hall b hb] at hbt
        cases hbt
  · rw [if_neg hlt]
    have hnot : ¬∃ b ∈ outcomes, b = true := fun hex =>
      hlt ((countFails_lt_length_iff outcomes).mpr hex)
    refine ⟨?_, ?_, rfl, rfl, rfl⟩
    · constructor
      · intro h
        simp at h
      · intro hex
        exact absurd hex hnot
    · simp only [true_iff, String.reduceEq, not_false_eq_true, forall_const]
      intro b hb
      cases hbv : b
      · rfl
      · exact absurd ⟨b, hb, hbv⟩ hnot

/-- Witness for C2 at a one-item remainder whose item succeeds. -/
theorem C2_witness :
    (((process_drive_photos_background 0 [true] 1).2.status = "completed"
      ↔ ∃ b ∈ [true], b = true)
    ∧ ((process_drive_photos_background 0 [true] 1).2.status = "failed"
      ↔ ∀ b ∈ [true], b = false)
    ∧ (process_drive_photos_background 0 [true] 1).2.processed_photos
        = 0 + countSuccess [true]
    ∧ (process_drive_photos_background 0 [true] 1).2.total_photos
        = 0 + countSuccess [true]
    ∧ (process_drive_photos_background 0 [true] 1).2.failed_photos
        = countFails [true]) :=
  C2_continuation_final_status 0 [true] 1 (by decide)

/-- C3 counterexample: with a fully-successful one-item initial slice
(`already_processed = 1`) and a one-item remainder whose item fails, the job
record written by the orchestrator handoff has `total_photos = 2` but the
first per-batch update of the Continuation Task recomputes
`total_photos = 1 + 1 - 1 = 1`, so `total_photos` DECREASES while the job is
still `"processing"` — the counters are not all monotonically non-decreasing
across the updates. -/
theorem C3_counterexample : monoTrace (driveJobStates [true] [false] 1) = false := by
  have h1 : chunks 1 [false] = [[false]] := by
    rw [chunks.eq_def]
    simp [chunks.eq_def]
  simp [driveJobStates, process_drive_photos_background, h1, runBatchesStates,
    runBatchesAcc, accState, stepItem, countSuccess, monoTrace, monoStepB]

/-- C3 amended: while an import job is in the `"processing"` state,
`processed_photos` and `failed_photos` are monotonically non-decreasing
across every update performed by the Orchestrator and the Continuation Task;
`total_photos` however is non-increasing from the orchestrator's handoff
update onwards: the handoff writes `total_found` (the full enumeration
count), and each per-batch update recomputes the total as
`imported_count + remainder_length - failed_so_far`, which already discounts
the initial-slice failures and then shrinks further by the newly failed
remainder items.  All three counters are non-decreasing across every update
only when no per-item failure occurred in the initial slice or in the
remainder. -/
theorem C3_amended_counter_monotonicity (initial outcomes : List Bool)
    (bs : Nat) :
    List.Chain' (fun a b => a.processed_photos ≤ b.processed_photos
        ∧ a.failed_photos ≤ b.failed_photos) (driveJobStates initial outcomes bs)
    ∧ List.Chain' (fun a b => b.total_photos ≤ a.total_photos)
        ((driveJobStates initial outcomes bs).drop 1)
    ∧ (countFails initial = 0 → countFails outcomes = 0 →
        List.Chain' (fun a b => a.total_photos ≤ b.total_photos)
          (driveJobStates initial outcomes bs)) := by
  have hstates : (process_drive_photos_background (countSuccess initial) outcomes bs).1
      = runBatchesStates (countSuccess initial) outcomes.length (0, 0)
          (chunks bs outcomes) := rfl
  have hsle : countSuccess initial ≤ initial.length := countSuccess_le_length initial
  refine ⟨?_, ?_, ?_⟩
  · have hbase := List.Chain'.imp (fun a b h => And.intro h.1 h.2.1)
      (chain'_runBatchesStates (countSuccess initial) outcomes.length (0, 0)
        (chunks bs outcomes))
    rcases List.chain'_cons'.mp hbase with ⟨hhead, htail⟩
    rw [driveJobStates, hstates]
    refine List.chain'_cons.mpr ⟨⟨Nat.zero_le _, Nat.zero_le _⟩, ?_⟩
    refine List.chain'_cons'.mpr ⟨?_, htail⟩
    intro y hy
    have h := hhead y hy
    exact ⟨by simpa [accState] using h.1, h.2⟩
  · have hbase := List.Chain'.imp (fun a b h => h.2.2)
      (chain'_runBatchesStates (countSuccess initial) outcomes.length (0, 0)
        (chunks bs outcomes))
    rcases List.chain'_cons'.mp hbase with ⟨hhead, htail⟩
    rw [driveJobStates, hstates]
    refine List.chain'_cons'.mpr ⟨?_, htail⟩
    intro y hy
    have h : y.total_photos ≤ countSuccess initial + outcomes.length - 0 := by
      simpa [accState] using hhead y hy
    show y.total_photos ≤ initial.length + outcomes.length
    omega
  · intro hinit hng
    have ha : countSuccess initial = initial.length :=
      countSuccess_eq_length initial ((countFails_eq_zero_iff initial).mp hinit)
    have hall : ∀ c ∈ chunks bs outcomes, countFails c = 0 := by
      intro c hc
      rw [countFails_eq_zero_iff]
      intro b hb
      have hbmem : b ∈ outcomes := by
        rw [← chunks_flatten bs outcomes]
        exact List.mem_flatten.mpr ⟨c, hc, hb⟩
      exact (countFails_eq_zero_iff outcomes).mp hng b hbmem
    have hbase := chain'_runBatchesStates_total_eq (countSuccess initial)
      outcomes.length (0, 0) (chunks bs outcomes) hall
    rcases List.chain'_cons'.mp hbase with ⟨hhead, htail⟩
    rw [driveJobStates, hstates]
    refine List.chain'_cons.mpr ⟨Nat.zero_le _, ?_⟩
    refine List.chain'_cons'.mpr ⟨?_, htail⟩
    intro y hy
    have h : countSuccess initial + outcomes.length - 0 ≤ y.total_photos := by
      simpa [accState] using hhead y hy
    show initial.length + outcomes.length ≤ y.total_photos
    omega

/-- Witness for C3 amended at a two-item initial slice and a one-item
remainder, none of which fails. -/
theorem C3_amended_witness :
    countFails [true, true] = 0
    ∧ countFails [true] = 0
    ∧ List.Chain' (fun a b => a.total_photos ≤ b.total_photos)
        (driveJobStates [true, true] [true] 1) :=
  ⟨by decide, by decide,
   (C3_amended_counter_monotonicity [true, true] [true] 1).2.2 (by decide) (by decide)⟩

/-- C1: for a drive import whose enumeration yields N items with batch size
B, N > B, and no per-item failures, the synchronous `import_photos` response
reports status `"processing"`, `imported_count = B`, `pending_count = N - B`
and `total_found = N`; the Continuation Task is scheduled on the remainder
with `already_processed = B`; and after it finishes the job record reads
`status = "completed"`, `processed_photos = N`, `failed_photos = 0`
(which is what `get_import_job_status` then returns). -/
theorem C1_drive_split_and_completion (files : List Bool) (B : Nat) (_hB : 0 < B)
    (hlen : B < files.length) (hall : ∀ b ∈ files, b = true) :
    (import_photos (ImportReq.mk true "drive" none [] (some "f") (some "f") true
        (EnumResult.ok files) B)).result
      = .ok (ImportResponse.mk "processing" B (some files.length)
          (some (files.length - B)))
    ∧ (import_photos (ImportReq.mk true "drive" none [] (some "f") (some "f") true
        (EnumResult.ok files) B)).bg_drive
      = some (BgDriveCall.mk B (files.drop B) B)
    ∧ (process_drive_photos_background B (files.drop B) B).2.status = "completed"
    ∧ (process_drive_photos_background B (files.drop B) B).2.processed_photos
        = files.length
    ∧ (process_drive_photos_background B (files.drop B) B).2.failed_photos = 0 := by
  have hfe : files.isEmpty = false := by
    cases files with
    | nil => simp at hlen
    | cons a l => rfl
  have hre : (files.drop B).isEmpty = false := by
    cases hd : files.drop B with
    | nil =>
        have := congrArg List.length hd
        simp [List.length_drop] at this
        omega
    | cons a l => rfl
  have him : countSuccess (files.take B) = B := by
    rw [countSuccess_eq_length _ (fun b hb => hall b (List.mem_of_mem_take hb)),
      List.length_take]
    omega
  have hdall : ∀ b ∈ files.drop B, b = true := fun b hb =>
    hall b (List.mem_of_mem_drop hb)
  have hdf : countFails (files.drop B) = 0 := (countFails_eq_zero_iff _).mpr hdall
  have hds : countSuccess (files.drop B) = files.length - B := by
    rw [countSuccess_eq_length _ hdall, List.length_drop]
  have hdpos : 0 < (files.drop B).length := by
    rw [List.length_drop]
    omega
  refine ⟨?_, ?_, ?_, ?_, ?_⟩
  · simp [import_photos, import_photos_try, hfe, hre, him, List.length_drop]
  · simp [import_photos, import_photos_try, hfe, hre, him]
  · rw [process_drive_final]
    simp [hdf, hdpos]
    omega
  · rw [process_drive_final]
    simp [hds]
    omega
  · rw [process_drive_final]
    simp [hdf]

/-- Witness for C1 at the spec's example: 25 enumerated items, batch size 10,
no failures. -/
theorem C1_witness :
    (import_photos (ImportReq.mk true "drive" none [] (some "f") (some "f") true
        (EnumResult.ok (List.replicate 25 true)) 10)).result
      = .ok (ImportResponse.mk "processing" 10 (some (List.replicate 25 true).length)
          (some ((List.replicate 25 true).length - 10)))
    ∧ (import_photos (ImportReq.mk true "drive" none [] (some "f") (some "f") true
        (EnumResult.ok (List.replicate 25 true)) 10)).bg_drive
      = some (BgDriveCall.mk 10 ((List.replicate 25 true).drop 10) 10)
    ∧ (process_drive_photos_background 10 ((List.replicate 25 true).drop 10) 10).2.status
        = "completed"
    ∧ (process_drive_photos_background 10
        ((List.replicate 25 true).drop 10) 10).2.processed_photos
        = (List.replicate 25 true).length
    ∧ (process_drive_photos_background 10
        ((List.replicate 25 true).drop 10) 10).2.failed_photos = 0 :=
  C1_drive_split_and_completion (List.replicate 25 true) 10 (by decide) (by decide)
    (by decide)

/-- Request used by the C8 counterexample and witness: the room exists, the
source is local, and the required `folder_path` field is missing. -/
def reqNoFolder : ImportReq :=
  ImportReq.mk true "local" none [] none none false (EnumResult.ok []) 10

/-- C8 counterexample: on a local import with a missing folder path — a
precondition failure in the claim's sense — the operation does NOT abort
before mutating: an import job record has been inserted (and marked failed),
and the error is surfaced as HTTP 500 wrapping the text of the original 400
error rather than verbatim with its original error class. -/
theorem C8_counterexample :
    (import_photos reqNoFolder).jobs
      = [JobRecord.mk "failed" 0 0 0]
    ∧ (import_photos reqNoFolder).result
      = .error (.httpExc 500 "400: Folder path required for local import") :=
  ⟨rfl, rfl⟩

/-- C8 amended: only the room-existence check aborts before any mutation and
surfaces its `NotFound` error verbatim; every other precondition failure
(missing/invalid source locator, missing credentials, enumeration
authorization failure, empty source) is raised after the import job record
has been inserted, leaves that record marked `"failed"` (a mutation), creates
no photo records, and is surfaced to the caller as HTTP 500 wrapping the
original error's text. -/
theorem C8_amended_precondition_failures (req : ImportReq) :
    (req.room_exists = false →
      (import_photos req).jobs = []
      ∧ (import_photos req).photos = []
      ∧ (import_photos req).result = .error (.httpExc 404 "Room not found"))
    ∧ (∀ e, req.room_exists = true → import_photos_try req = .error e →
        (import_photos req).jobs = [JobRecord.mk "failed" 0 0 0]
        ∧ (import_photos req).photos = []
        ∧ (import_photos req).result = .error (.httpExc 500 (strOfErr e)))
    ∧ (req.source_type = "local" → req.folder_path = none →
        import_photos_try req
          = .error (.httpExc 400 "Folder path required for local import"))
    ∧ (∀ fp, req.source_type = "local" → req.folder_path = some fp →
        req.scan_result = [] →
        import_photos_try req
          = .error (.httpExc 400 "No image files found in the specified folder"))
    ∧ (req.source_type = "drive" → req.drive_folder_input = none →
        import_photos_try req = .error (.httpExc 400 "Drive folder ID required"))
    ∧ (∀ di, req.source_type = "drive" → req.drive_folder_input = some di →
        req.extracted_id = none →
        import_photos_try req
          = .error (.httpExc 400 "Invalid Google Drive folder ID or URL"))
    ∧ (∀ di ei, req.source_type = "drive" → req.drive_folder_input = some di →
        req.extracted_id = some ei → req.has_token = false →
        import_photos_try req
          = .error (.valueError "Google Drive access requires user authentication. Please sign in with Google to import photos from Drive."))
    ∧ (∀ di ei m, req.source_type = "drive" → req.drive_folder_input = some di →
        req.extracted_id = some ei → req.has_token = true →
        req.enum = EnumResult.authFail m →
        import_photos_try req
          = .error (.httpExc 401 "Authentication required. This folder is private or you don't have access."))
    ∧ (∀ di ei, req.source_type = "drive" → req.drive_folder_input = some di →
        req.extracted_id = some ei → req.has_token = true →
        req.enum = EnumResult.ok [] →
        import_photos_try req
          = .error (.httpExc 400 "No image files found in the Drive folder")) := by
  refine ⟨?_, ?_, ?_, ?_, ?_, ?_, ?_, ?_, ?_⟩
  · intro h
    refine ⟨?_, ?_, ?_⟩ <;> simp [import_photos, h]
  · intro e hroom herr
    refine ⟨?_, ?_, ?_⟩ <;> simp [import_photos, hroom, herr]
  · intro hst hfp
    simp [import_photos_try, hst, hfp]
  · intro fp hst hfp hscan
    simp [import_photos_try, hst, hfp, hscan]
  · intro hst hdi
    simp [import_photos_try, hst, hdi]
  · intro di hst hdi hei
    simp [import_photos_try, hst, hdi, hei]
  · intro di ei hst hdi hei htok
    simp [import_photos_try, hst, hdi, hei, htok]
  · intro di ei m hst hdi hei htok henum
    simp [import_photos_try, hst, hdi, hei, htok, henum]
  · intro di ei hst hdi hei htok henum
    simp [import_photos_try, hst, hdi, hei, htok, henum]

/-- Witness for C8 amended at the concrete missing-folder-path request. -/
theorem C8_amended_witness :
    (import_photos reqNoFolder).jobs = [JobRecord.mk "failed" 0 0 0]
    ∧ (import_photos reqNoFolder).photos = []
    ∧ (import_photos reqNoFolder).result
        = .error (.httpExc 500
            (strOfErr (.httpExc 400 "Folder path required for local import"))) :=
  (C8_amended_precondition_failures reqNoFolder).2.1
    (.httpExc 400 "Folder path required for local import") rfl
    ((C8_amended_precondition_failures reqNoFolder).2.2.1 rfl rfl)

/-- Request used by the C9 counterexample: a local import whose folder scan
finds four paths with image extensions; the background compression outcomes
`[true, true, true, false]` model three valid images and one corrupt file. -/
def reqCorrupt : ImportReq :=
  ImportReq.mk true "local" (some "/photos") ["a.jpg", "b.jpg", "c.jpg", "bad.jpg"]
    none none false (EnumResult.ok []) 10

/-- C9 counterexample: on a local import over 3 valid images and 1 corrupt
file, the endpoint reports `imported_count = 4` (not 3), a photo record IS
created for the corrupt file, and NO item is transformed to a ready payload
inline before the operation returns (every inserted record still lacks its
payload; compression happens in background tasks scheduled per photo). -/
theorem C9_counterexample :
    (import_photos reqCorrupt).result
      = .ok (ImportResponse.mk "completed" 4 none none)
    ∧ (∃ p ∈ (import_photos reqCorrupt).photos, p.name = "bad.jpg")
    ∧ (∀ p ∈ (import_photos reqCorrupt).photos, p.compressed = false) := by
  refine ⟨rfl, ?_, ?_⟩ <;> decide

/-- C9 amended: a local-folder import inserts one photo record per scanned
path, with NO ready payload attached inline: compression is deferred to one
background task per photo, scheduled before the operation returns.  The job
completes with `imported_count` equal to the number of scanned paths
(4 in the 3-valid-plus-1-corrupt example), and per-item compression failures
neither remove the record nor fail the (already completed) job: after the
background tasks run, exactly the items whose compression succeeded carry a
payload, and the corrupt file's record remains, payload-less. -/
theorem C9_amended_local_import_deferred (scan : List String) (oks : List Bool)
    (fp : String) (hne : scan ≠ []) (hlen : oks.length = scan.length) :
    (import_photos (ImportReq.mk true "local" (some fp) scan none none false
        (EnumResult.ok []) 10)).result
      = .ok (ImportResponse.mk "completed" scan.length none none)
    ∧ (import_photos (ImportReq.mk true "local" (some fp) scan none none false
        (EnumResult.ok []) 10)).jobs
      = [JobRecord.mk "completed" scan.length scan.length 0]
    ∧ (import_photos (ImportReq.mk true "local" (some fp) scan none none false
        (EnumResult.ok []) 10)).photos.map (fun p => p.name) = scan
    ∧ (∀ p ∈ (import_photos (ImportReq.mk true "local" (some fp) scan none none false
        (EnumResult.ok []) 10)).photos, p.compressed = false)
    ∧ (run_compress_tasks (import_photos (ImportReq.mk true "local" (some fp) scan
        none none false (EnumResult.ok []) 10)).photos oks).map (fun p => p.compressed)
      = oks
    ∧ (run_compress_tasks (import_photos (ImportReq.mk true "local" (some fp) scan
        none none false (EnumResult.ok []) 10)).photos oks).map (fun p => p.name)
      = scan := by
  have hse : scan.isEmpty = false := by
    cases scan with
    | nil => exact absurd rfl hne
    | cons a l => rfl
  have hphotos : (import_photos (ImportReq.mk true "local" (some fp) scan none none
      false (EnumResult.ok []) 10)).photos = mkLocalPhotos 0 scan := by
    simp [import_photos, import_photos_try, hse]
  refine ⟨?_, ?_, ?_, ?_, ?_, ?_⟩
  · simp [import_photos, import_photos_try, hse]
  · simp [import_photos, import_photos_try, hse]
  · rw [hphotos, mkLocalPhotos_map_name]
  · rw [hphotos]
    exact fun p hp => mkLocalPhotos_compressed 0 scan p hp
  · rw [hphotos]
    exact run_compress_tasks_map_compressed scan oks 0 hlen
  · rw [hphotos]
    exact run_compress_tasks_map_name scan oks 0 hlen

/-- Witness for C9 amended at a one-file scan whose compression succeeds. -/
theorem C9_amended_witness :
    (["a.jpg"] : List String) ≠ []
    ∧ (import_photos (ImportReq.mk true "local" (some "/p") ["a.jpg"] none none false
        (EnumResult.ok []) 10)).result
      = .ok (ImportResponse.mk "completed" (["a.jpg"] : List String).length none none)
    ∧ (run_compress_tasks (import_photos (ImportReq.mk true "local" (some "/p")
        ["a.jpg"] none none false (EnumResult.ok []) 10)).photos [true]).map
        (fun p => p.compressed) = [true] :=
  ⟨by decide,
   (C9_amended_local_import_deferred ["a.jpg"] [true] "/p" (by decide) (by decide)).1,
   (C9_amended_local_import_deferred ["a.jpg"] [true] "/p" (by decide)
     (by decide)).2.2.2.2.1⟩
